import Mathlib

/-!
# Verification of the QuantInvestStrats bar-chart renderer and multi-portfolio aggregator

A shallow embedding of the two source files

  * `qis/plots/bars.py` (the functions `plot_bars` and `plot_vbars`), and
  * `qis/portfolio/multi_portfolio_data.py` (the class `MultiPortfolioData`),

together with theorems settling the frozen specification claims.

Modelling conventions:

  * numeric values are rationals (`ℚ`), standing for the exact values of the
    floating-point computations performed by numpy/pandas (no claim here
    depends on rounding, so exact arithmetic is the faithful reading);
  * a pandas `DataFrame`/`Series` is a record of an index list, a column list,
    and row data (either positional row lists or a total lookup function into
    `Option ℚ`, where `none` stands for a missing value, pandas `NaN`);
  * matplotlib/seaborn drawing calls are recorded as lists of drawn objects
    (bar patches, text labels, total markers) instead of being rendered;
  * Python in-place mutation of an argument (`df.index = ...`) is modelled by
    returning the post-call state of the caller's object alongside the drawn
    output;
  * fallible operations (Python exceptions such as `IndexError`/`KeyError`)
    return `Option`, with `none` the raised exception.
-/

/-! ## Part 1: `plot_vbars` (qis/plots/bars.py, lines 184-385)

The diverging horizontal stacked bar chart.  The drawing-relevant state of a
call is the list of drawn `barh` segments, the list of drawn value texts and
the list of drawn total ticks. -/

namespace Vbars

/-- Tolerance of `np.isclose(c, 0.0)`: `|c - 0| <= atol + rtol * |0| = atol`
with numpy's default `atol = 1e-8`. -/
def atol : ℚ := 1 / 100000000

/-- `np.isclose(c, 0.0)` with numpy defaults (the second argument being zero,
the `rtol` term vanishes). -/
def npIsCloseZero (c : ℚ) : Bool := |c| ≤ atol

/-- `np.where(x < 0.0, x, 0.0)`, elementwise building block of the negative
stacking pass (line 255). -/
def negWhere (x : ℚ) : ℚ := if x < 0 then x else 0

/-- `np.where(x > 0.0, x, 0.0)`, elementwise building block of the positive
stacking pass (line 288). -/
def posWhere (x : ℚ) : ℚ := if x > 0 then x else 0

/-- The input table of `plot_vbars`: `df.index` (row labels, one bar per row),
`df.columns` (`category_names`, line 211) and the numeric cells
(`np_data = np.array(list(results.values()))`, lines 216-219: one list per
row, in column order). -/
structure VbarsInput where
  labels : List String
  category_names : List String
  np_data : List (List ℚ)

/-- The `plot_vbars` keyword flags that take part in the segment stacking,
value annotation and total decoration logic (purely cosmetic keywords -
colors, fontsize, legend placement - do not change what is drawn where and
are omitted). -/
structure VbarsCfg where
  is_add_bar_values : Bool := true
  add_bar_perc_values : Bool := false
  add_bar_value_at_mid : Bool := true
  add_total_bar : Bool := true
  add_total_to_index : Bool := false
  add_total_to_left : Bool := false

/-- Which of the two stacking passes drew a segment: the negative pass
(lines 247-278) or the positive pass (lines 280-311). -/
inductive StackPass where
  | neg
  | pos
deriving DecidableEq, Repr

/-- One `ax.barh` bar: the pass that drew it, the row (category) position,
the column index, the left edge `start`, the drawn (nonnegative) width, and
the signed cell value `c` it came from (for the negative pass `value ≤ 0` and
`width = |value|`; for the positive pass `width = value ≥ 0`). -/
structure Segment where
  pass : StackPass
  row : Nat
  colIdx : Nat
  start : ℚ
  width : ℚ
  value : ℚ
deriving DecidableEq, Repr

/-- One `ax.text` bar-value label (lines 264-278 and 297-311): the row it is
placed at, its x location, the signed cell value `c` it formats, and whether
the percentage-of-total variant of the label was requested. -/
structure BarText where
  row : Nat
  xloc : ℚ
  value : ℚ
  withPerc : Bool
deriving DecidableEq, Repr

/-- `np_data[:, i]` (line 255/288): column `i` of the row-major cell data. -/
def column (np_data : List (List ℚ)) (i : Nat) : List ℚ :=
  np_data.map (fun row => row.getD i 0)

/-- Row sums `np.sum(np_data, axis=1)` (line 220, which overwrites the
`totals` argument). -/
def rowSums (np_data : List (List ℚ)) : List ℚ :=
  np_data.map (fun row => row.sum)

/-- The running prefix sums of one row, `np.cumsum` along a row. -/
def prefixSums : List ℚ → ℚ → List ℚ
  | [], _ => []
  | x :: rest, acc => (acc + x) :: prefixSums rest (acc + x)

/-- `np.max(np.cumsum(np_data, axis=1))` (line 243): the fixed x location used
for all value labels when `add_bar_value_at_mid` is off.  numpy raises on an
empty array; the claims only evaluate this on nonempty data, where the
`foldr max` below is its value. -/
def barValueAtMax (np_data : List (List ℚ)) : ℚ :=
  ((np_data.flatMap (fun row => prefixSums row 0)).foldr max 0)

/-- The drawn width of the `y`-th bar of one column: `np.abs(widths)` in the
negative pass (line 262), `widths` itself in the positive pass (line 295). -/
def drawnWidth (pass : StackPass) (w : ℚ) : ℚ :=
  match pass with
  | .neg => |w|
  | .pos => w

/-- The value texts one column contributes in either pass (lines 264-278 /
297-311): for each row `y`, with `c = widths[y]` and
`xcenters = starts + np.abs(widths)/2` (negative pass, line 265) or
`xcenters = starts + widths/2` (positive pass, line 298), a text is drawn
unless `np.isclose(c, 0.0)`; its x location is the segment center when
`add_bar_value_at_mid` else the shared `bar_value_at_max` location. -/
def colTexts (cfg : VbarsCfg) (pass : StackPass) (bar_value_at_max : ℚ)
    (starts widths : List ℚ) : List BarText :=
  if cfg.is_add_bar_values then
    (List.range widths.length).filterMap (fun y =>
      let c := widths.getD y 0
      if npIsCloseZero c then none
      else
        some { row := y
               xloc := if cfg.add_bar_value_at_mid then
                         starts.getD y 0 + drawnWidth pass (widths.getD y 0) / 2
                       else bar_value_at_max
               value := c
               withPerc := cfg.add_bar_perc_values })
  else []

/-- The segments one column contributes: one bar per row with left edge
`starts[y]` and the pass's drawn width (lines 262 and 295). -/
def colSegments (pass : StackPass) (i : Nat) (starts widths : List ℚ) :
    List Segment :=
  (List.range widths.length).map (fun y =>
    { pass := pass
      row := y
      colIdx := i
      start := starts.getD y 0
      width := drawnWidth pass (widths.getD y 0)
      value := widths.getD y 0 })

/-- One pass of the stacking loop (`for i, colname in enumerate(category_names)`,
lines 250-278 and 282-311): walks the column indices carrying the running
`last_starts` vector, which grows by `np.abs(widths)` per column in the
negative pass (line 261) and by `widths` in the positive pass (line 294),
i.e. by the pass's drawn width.  Returns the drawn segments, the drawn value
texts and the final `last_starts`. -/
def stackPass (cfg : VbarsCfg) (pass : StackPass) (np_data : List (List ℚ))
    (bar_value_at_max : ℚ) (select : ℚ → ℚ) :
    List Nat → List ℚ → List Segment × List BarText × List ℚ
  | [], last_starts => ([], [], last_starts)
  | i :: rest, last_starts =>
    let widths := (column np_data i).map select
    let starts := last_starts
    let next_starts := last_starts.zipWith (fun s w => s + drawnWidth pass w) widths
    let (segs, texts, fin) :=
      stackPass cfg pass np_data bar_value_at_max select rest next_starts
    (colSegments pass i starts widths ++ segs,
     colTexts cfg pass bar_value_at_max starts widths ++ texts, fin)

/-- The drawn output of one `plot_vbars` call, plus the post-call state of the
caller's `df.index` (line 213-214 reassigns it in place when
`add_total_to_index` is set and a `totals` argument was given). -/
structure VbarsOutput where
  post_labels : List String
  segments : List Segment
  texts : List BarText
  total_ticks : List (Nat × ℚ)

/-- `'{x} {formatted total}'` index relabelling of line 214; the numeric
formatter `var_format.format` is abstracted as `fmt`. -/
def relabel (fmt : ℚ → String) (labels : List String) (totals : List ℚ) :
    List String :=
  (labels.zip totals).map (fun p => p.1 ++ " " ++ fmt p.2)

/-- Shallow embedding of `plot_vbars` (qis/plots/bars.py lines 184-385).
`totalsArg` is the `totals` keyword; `fmt` abstracts `var_format.format`.
Faithful steps, in source order:
  * line 213-214: the caller's `df.index` is reassigned in place when
    `add_total_to_index` holds and `totals` is not `None`;
  * line 220: `totals` is overwritten by the row sums of the data;
  * line 243: `bar_value_at_max` when `add_bar_value_at_mid` is off;
  * lines 247-278: negative pass over `np.where(np_data < 0, np_data, 0)`
    starting from `initial_starts = np.sum(np.where(np_data < 0, ...), axis=1)`
    (line 249), i.e. the leftmost (most negative) cumulative point;
  * line 281: `last_starts = 0 * last_starts` resets the accumulator, then
    lines 282-311: positive pass over `np.where(np_data > 0, np_data, 0)`;
  * lines 318-320: an `ax.vlines` total tick per row at `x = totals[idx]`
    when `add_total_bar`.
Cosmetic steps (colors, legend, axis limits, grid, spines, title) draw no
segment, value text or total tick and are omitted. -/
def plot_vbars (cfg : VbarsCfg) (df : VbarsInput) (totalsArg : Option (List ℚ))
    (fmt : ℚ → String) : VbarsOutput :=
  let post_labels :=
    match totalsArg with
    | some ts => if cfg.add_total_to_index then relabel fmt df.labels ts
                 else df.labels
    | none => df.labels
  let np_data := df.np_data
  let totals := rowSums np_data
  let bar_value_at_max :=
    if cfg.add_bar_value_at_mid then 0 else barValueAtMax np_data
  let cols := List.range df.category_names.length
  let initial_starts := np_data.map (fun row => (row.map negWhere).sum)
  let (negSegs, negTexts, _) :=
    stackPass cfg .neg np_data bar_value_at_max negWhere cols initial_starts
  let zero_starts := initial_starts.map (fun _ => (0 : ℚ))
  let (posSegs, posTexts, _) :=
    stackPass cfg .pos np_data bar_value_at_max posWhere cols zero_starts
  { post_labels := post_labels
    segments := negSegs ++ posSegs
    texts := negTexts ++ posTexts
    total_ticks :=
      if cfg.add_total_bar then
        (List.range totals.length).map (fun y => (y, totals.getD y 0))
      else [] }

/-- The signed drawn width a cell value `w` of a pass contributes:
minus the drawn width for the negative pass, the drawn width itself
for the positive pass. -/
def signedDrawn (pass : StackPass) (w : ℚ) : ℚ :=
  match pass with
  | .neg => -|w|
  | .pos => w

/-- The signed width of a drawn segment: negative-pass segments count with
negative sign, positive-pass segments with positive sign. -/
def signedWidth (s : Segment) : ℚ :=
  match s.pass with
  | .neg => -s.width
  | .pos => s.width

/-- The signed sum of the drawn segment widths of row `y`. -/
def rowSignedSum (out : VbarsOutput) (y : Nat) : ℚ :=
  ((out.segments.filter (fun s => s.row == y)).map signedWidth).sum

end Vbars

/-! ## Part 2: `plot_bars` (qis/plots/bars.py, lines 20-181)

The grouped/stacked vertical bar chart.  The call's drawing-relevant state is
the list of bar patches put on the axis by seaborn, the bar-value texts, and
the total markers; the post-call state of the caller's table records the
in-place index reassignment of lines 66-67. -/

namespace Bars

/-- An index entry of the input table: either a `pd.Timestamp` (abstracted to
a time count) or a plain label (also the result of `strftime`). -/
inductive IdxVal where
  | ts (t : Nat)
  | label (s : String)
deriving DecidableEq, Repr

/-- A `pd.DataFrame` input: index (categories), named columns (series), and
row-major cells (`data[i][j]` the value of category `i`, series `j`). -/
structure BarsFrame where
  index : List IdxVal
  cols : List String
  data : List (List ℚ)
deriving DecidableEq, Repr

/-- The `Union[pd.DataFrame, pd.Series]` argument `df` of `plot_bars`. -/
inductive BarsData where
  | series (index : List IdxVal) (values : List ℚ)
  | frame (f : BarsFrame)
deriving DecidableEq, Repr

/-- The index of the caller's table. -/
def indexOf : BarsData → List IdxVal
  | .series idx _ => idx
  | .frame f => f.index

/-- The numeric cells of the caller's table (one row list per category; a
series is a single column). -/
def valuesOf : BarsData → List (List ℚ)
  | .series _ vals => vals.map (fun v => [v])
  | .frame f => f.data

/-- The `plot_bars` keyword arguments that take part in the index
re-formatting, bar-value annotation and totals logic.  `date_fmt` abstracts
`date.strftime(date_format)`; `stacked` is carried because the claim
quantifies over it (in the drawing code it only sizes the generated palette,
lines 60-63, and the commented-out `df.plot.bar` call; the seaborn call of
lines 74-77 always draws dodged grouped bars).  Purely cosmetic keywords
(colors, fontsize, legend, rotation, spines, title) are omitted: they do not
change which patches, texts or markers are produced. -/
structure BarsCfg where
  stacked : Bool := true
  date_fmt : Nat → String
  min_max_for_bars_values : Option ℚ := none
  is_add_bar_values : Bool := false
  is_add_top_bar_values : Bool := false
  totals : Option (List ℚ) := none
  is_top_totals : Bool := false

/-- `date.strftime(date_format)` applied to one index entry (line 67).  On a
non-timestamp entry Python would raise `AttributeError`; pandas only reaches
this branch through `isinstance(df.index[0], pd.Timestamp)`, i.e. on a
`DatetimeIndex`, which is homogeneous, so the `label` branch is dead code kept
only to make the function total. -/
def strftimeIdx (fmt : Nat → String) : IdxVal → IdxVal
  | .ts t => .label (fmt t)
  | .label s => .label s

/-- `isinstance(df.index[0], pd.Timestamp)` (line 66).  Python raises
`IndexError` on an empty index; the theorems below restrict to nonempty
tables. -/
def isTsHead : List IdxVal → Bool
  | .ts _ :: _ => true
  | _ => false

/-- Lines 66-67: `df.index = [date.strftime(date_format) for date in df.index]`
- executed on the caller's object, not on a copy. -/
def formatIndex (fmt : Nat → String) (index : List IdxVal) : List IdxVal :=
  if isTsHead index then index.map (strftimeIdx fmt) else index

/-- One matplotlib bar patch as the annotation loop of lines 84-109 reads it:
`p.get_x()`, `p.get_width()`, `p.get_y()`, `p.get_height()`. -/
structure Patch where
  x : ℚ
  width : ℚ
  y : ℚ
  height : ℚ
deriving DecidableEq, Repr

/-- The left edge of the full-width bar slot of category `i`: matplotlib's
default categorical bar geometry, width `0.8` centred on the position `i`. -/
def catX (i : Nat) : ℚ := (i : ℚ) - 2/5

/-- The patches `sns.barplot(x=df.index, y=df, ...)` (line 70) puts on the
axis for a series: one bar per category at the categorical position `i`, with
matplotlib's default categorical bar geometry (width `0.8` centred on `i`). -/
def seriesPatches (values : List ℚ) : List Patch :=
  (List.range values.length).map (fun (i : Nat) =>
    Patch.mk (catX i) (4/5) 0 (values.getD i 0))

/-- The patches `sns.barplot(x=df1.index, y=value_name, data=df1, hue=var_name,
...)` (lines 74-77) puts on the axis for the melted frame: dodged grouped
bars, one sub-bar per (category `i`, hue level `j`) pair, each of width
`0.8 / n_cols`, the hue-`j` sub-bar of category `i` at
`x = i - 0.4 + j * width`; seaborn appends patches hue-major (all bars of hue
level 0 in category order, then hue level 1, ...).  The model takes the
melted categories positionally, which agrees with seaborn whenever the index
labels are pairwise distinct. -/
def framePatches (f : BarsFrame) : List Patch :=
  (List.range f.cols.length).flatMap (fun (j : Nat) =>
    (List.range f.index.length).map (fun (i : Nat) =>
      Patch.mk (catX i + (j : ℚ) * ((4/5) / (f.cols.length : ℚ)))
        ((4/5) / (f.cols.length : ℚ)) 0 ((f.data.getD i []).getD j 0)))

/-- The patches drawn for either input shape (lines 69-77). -/
def patchesOf : BarsData → List Patch
  | .series _ vals => seriesPatches vals
  | .frame f => framePatches f

/-- The accumulator of the patch loop of lines 81-109: `x_locs`, `x_mins`,
`x_maxs` ("take only one location per asset"). -/
structure XSlots where
  x_locs : List ℚ
  x_mins : List ℚ
  x_maxs : List ℚ
deriving DecidableEq, Repr

/-- One iteration of lines 106-109: append the patch's `x` (and `x`, `x +
width`) unless `x` was seen before. -/
def xStep (acc : XSlots) (p : Patch) : XSlots :=
  if p.x ∈ acc.x_locs then acc
  else { x_locs := acc.x_locs ++ [p.x]
         x_mins := acc.x_mins ++ [p.x]
         x_maxs := acc.x_maxs ++ [p.x + p.width] }

/-- The whole `for p in ax.patches` collection loop (lines 84-109). -/
def collectX (patches : List Patch) : XSlots :=
  patches.foldl xStep { x_locs := [], x_mins := [], x_maxs := [] }

/-- One bar-value text (`ax.annotate`, lines 96-104): positioned inside the
bar when `is_add_bar_values` (offset `.2 width`, `.3 height` up / `.8 height`
down), or pinned near the top when `is_add_top_bar_values` (the model keeps
the x location; the pinned y is `0.95 * ymax` of the current axis limits,
outside the embedded state).  `value` is the height the label formats. -/
structure ValueText where
  x_loc : ℚ
  y_loc : Option ℚ
  value : ℚ
deriving DecidableEq, Repr

/-- The bar-value texts of the patch loop (lines 89-104): a patch is labelled
only if `is_put_label` (its `|height|` is above `min_max_for_bars_values`
when that threshold is given, lines 90-92) and its height is nonzero. -/
def valueTexts (cfg : BarsCfg) (patches : List Patch) : List ValueText :=
  patches.filterMap (fun p => show Option ValueText from
    let is_put_label : Bool := match cfg.min_max_for_bars_values with
      | some thr => decide (¬ |p.height| ≤ thr)
      | none => true
    let y_loc : ℚ := if p.height > 0 then p.y + (3/10) * p.height
                     else p.y + (8/10) * p.height
    if cfg.is_add_bar_values then
      if is_put_label ∧ p.height ≠ 0 then
        some { x_loc := p.x + (2/10) * p.width
               y_loc := some y_loc
               value := p.height }
      else none
    else if cfg.is_add_top_bar_values then
      if is_put_label ∧ p.height ≠ 0 then
        some { x_loc := p.x + (2/10) * p.width, y_loc := none, value := p.height }
      else none
    else none)

/-- One drawn total marker (lines 116-127): for `zip(totals, x_locs, x_mins,
x_maxs)` entry `(total, x_loc, x_min, x_max)`, either the top-anchored
`ax.text` at `x_min + 0.2 (x_max - x_min)` showing `var_format.format(total)`
(when `is_top_totals`), or the `ax.hlines` tick from `x_min` to `x_max` at
`y = total` plus its label.  In both shapes the shown value is `total`. -/
structure TotalMarker where
  total : ℚ
  x_min : ℚ
  x_max : ℚ
  is_top : Bool
deriving DecidableEq, Repr

/-- `zip(totals, x_locs, x_mins, x_maxs)` - Python's `zip` truncates to the
shortest input. -/
def zip4 {α β γ δ : Type} : List α → List β → List γ → List δ → List (α × β × γ × δ)
  | a :: as, b :: bs, c :: cs, d :: ds => (a, b, c, d) :: zip4 as bs cs ds
  | _, _, _, _ => []

/-- Lines 111-127: the total markers drawn when a `totals` list is supplied
(the y-limit expansion of lines 112-114 changes axis limits only). -/
def totalMarkers (cfg : BarsCfg) (slots : XSlots) : List TotalMarker :=
  match cfg.totals with
  | none => []
  | some ts =>
    (zip4 ts slots.x_locs slots.x_mins slots.x_maxs).map (fun q =>
      { total := q.1, x_min := q.2.2.1, x_max := q.2.2.2,
        is_top := cfg.is_top_totals })

/-- The output of one `plot_bars` call: the post-call state of the caller's
table (index re-formatted in place by lines 66-67, values untouched), the
patches, the bar-value texts and the total markers. -/
structure BarsOutput where
  post_df : BarsData
  patches : List Patch
  value_texts : List ValueText
  markers : List TotalMarker

/-- Shallow embedding of `plot_bars` (qis/plots/bars.py lines 20-181), in
source order:
  * lines 51-64 create the figure and the palette (cosmetic; the `stacked`
    flag is used only here);
  * lines 66-67 re-format a timestamp index to display strings by assigning
    `df.index` on the caller's object;
  * lines 69-77 draw the bars (seaborn, dodged in both modes);
  * lines 81-109 walk `ax.patches`, emitting bar-value texts and collecting
    `x_locs`/`x_mins`/`x_maxs` (one entry per distinct patch `x`);
  * lines 111-127 draw one total marker per `zip(totals, x_locs, ...)` entry;
  * the remaining lines (legend, average line, zero baseline, tick formats,
    spines, title) draw no patch, value text or total marker. -/
def plot_bars (cfg : BarsCfg) (df : BarsData) : BarsOutput :=
  let post_index := formatIndex cfg.date_fmt (indexOf df)
  let post_df : BarsData :=
    match df with
    | .series _ vals => .series post_index vals
    | .frame f => .frame { f with index := post_index }
  let patches := patchesOf df
  let slots := collectX patches
  { post_df := post_df
    patches := patches
    value_texts := valueTexts cfg patches
    markers := totalMarkers cfg slots }

/-- The number of categories of the input table: one bar group per index
entry. -/
def nCategories : BarsData → Nat
  | .series idx _ => idx.length
  | .frame f => f.index.length

/-- The columns of the caller's table (a series has none). -/
def colsOf : BarsData → List String
  | .series _ _ => []
  | .frame f => f.cols

/-- The drawn width of one bar: the full categorical slot `0.8` for a series,
the dodged sub-bar width `0.8 / n_cols` for a frame. -/
def barWidth : BarsData → ℚ
  | .series _ _ => 4/5
  | .frame f => (4/5) / (f.cols.length : ℚ)

/-- Well-formedness of the input as pandas guarantees it: a series has one
value per index entry; a frame has at least one column (seaborn draws nothing
from a zero-column melt). -/
def inputWF : BarsData → Prop
  | .series idx vals => vals.length = idx.length
  | .frame f => f.cols ≠ []

/-- The default marker used by the positional statements below. -/
def mdflt : TotalMarker := { total := 0, x_min := 0, x_max := 0, is_top := false }

/-- A concrete input whose index holds timestamps: the configuration
(`date_format` rendered by a constant formatter, everything else default)
and a one-row, one-column table indexed by a timestamp. -/
def tsDemoCfg : BarsCfg := { date_fmt := fun _ => "01-Jan-70" }

/-- The concrete timestamp-indexed table for the mutation counterexample. -/
def tsDemoDf : BarsData := .frame { index := [.ts 0], cols := ["a"], data := [[1]] }

/-- A concrete two-category, two-series table with supplied totals, used to
witness the totals-marker theorem. -/
def totalsDemoCfg : BarsCfg := { date_fmt := fun _ => "", totals := some [10, 20] }

/-- The concrete table for the totals-marker witness. -/
def totalsDemoDf : BarsData :=
  .frame { index := [.label "a", .label "b"], cols := ["c1", "c2"],
           data := [[1, 2], [3, 4]] }

end Bars

/-! ## Part 3: `MultiPortfolioData` (qis/portfolio/multi_portfolio_data.py)

The multi-portfolio aggregator: the unified NAV table (`set_navs`), benchmark
attachment, the pairwise difference views, the attribution row filter and the
per-asset-class NAV view. -/

namespace MultiPortfolio

/-- A time-indexed pandas frame with string-named columns: timestamps
(abstract time counts), column names, and a cellwise lookup; `none` stands
for `NaN` / a missing observation. -/
structure TsFrame where
  idx : List Nat
  cols : List String
  entry : Nat → String → Option ℚ

/-- A named pandas Series over a timestamp index (a portfolio NAV as
`get_portfolio_nav()` returns it). -/
structure NavSeries where
  name : String
  idx : List Nat
  val : Nat → ℚ

/-- Modelled from the spec: `PortfolioData` (qis/portfolio/portfolio_data.py)
is not one of the two staged source files; the spec treats it as the external
`PortfolioResult` entity which "exposes a net-asset-value series,
per-instrument profit/loss table, exposure table, turnover series, cost
series, and an asset-group classification", with the TimeSeriesTable
invariant that timestamps are strictly increasing.  The aggregator reads it
only through accessors, each modelled as opaque data of the right shape:
`get_portfolio_nav()` is `nav`, `.instrument_pnl` is `instrument_pnl`,
`get_exposures(is_grouped=True, ..., add_total=False)` is `exposures`, and
`get_ac_navs(time_period=tp)` is `ac_navs tp`. -/
structure PortfolioData where
  nav : NavSeries
  instrument_pnl : TsFrame
  exposures : TsFrame
  ac_navs : Option (Nat × Nat) → TsFrame

/-- The empty frame (used only to build default values). -/
def emptyFrame : TsFrame := { idx := [], cols := [], entry := fun _ _ => none }

/-- A default portfolio for positional lookups in statements. -/
def dfltPortfolio : PortfolioData :=
  { nav := { name := "", idx := [], val := fun _ => 0 }
    instrument_pnl := emptyFrame
    exposures := emptyFrame
    ac_navs := fun _ => emptyFrame }

/-- First-occurrence union of two label lists: the membership set of a pandas
outer join.  (pandas sorts the union of two differing indexes; the theorems
below use only membership, which does not depend on the order.) -/
def listUnion {α : Type} [DecidableEq α] (l1 l2 : List α) : List α :=
  l1 ++ l2.filter (fun x => decide (x ∉ l1))

/-- `.fillna(0.0)` after an outer-join alignment (line 300): a missing
observation becomes `0`. -/
def fillna0 (a : TsFrame) (t : Nat) (c : String) : ℚ := (a.entry t c).getD 0

/-- Lines 299-301 of `plot_instrument_pnl_diff`:
`df1_, df2_ = pnl_inst1.align(other=pnl_inst2, join='outer', axis=None)`,
`df1_, df2_ = df1_.fillna(0.0), df2_.fillna(0.0)`, `diff = df1_.subtract(df2_)`:
align the two instrument P&L tables on the union of timestamps and
instruments, fill missing entries with zero, and subtract. -/
def instrument_pnl_diff (a b : TsFrame) : TsFrame :=
  { idx := listUnion a.idx b.idx
    cols := listUnion a.cols b.cols
    entry := fun t c => some (fillna0 a t c - fillna0 b t c) }

/-- Python list indexing `lst[i]`: `0 ≤ i < len` selects position `i`; a
negative `-len ≤ i < 0` silently selects position `len + i` (counting from
the end); anything else raises `IndexError` (`none`). -/
def pyGet {α : Type} (l : List α) (i : Int) : Option α :=
  if 0 ≤ i then l[i.toNat]?
  else if -i ≤ (l.length : Int) then l[l.length - (-i).toNat]? else none

/-- Lines 296-311 (`plot_instrument_pnl_diff`): fetch the two portfolios by
index (lines 297-298) and difference their instrument P&L tables (lines
299-301).  The optional grouping (lines 303-308), time-period restriction and
cumulative sum (lines 309-311) transform the resulting table but cannot
raise, so the call fails exactly when an index lookup fails. -/
def plot_instrument_pnl_diff_op (pds : List PortfolioData) (i j : Int) :
    Option TsFrame := do
  let p1 ← pyGet pds i
  let p2 ← pyGet pds j
  some (instrument_pnl_diff p1.instrument_pnl p2.instrument_pnl)

/-- `exposures1.subtract(exposures2)` with pandas auto-alignment (line 333):
union of labels, `NaN` where either operand is missing. -/
def subtract_frames (a b : TsFrame) : TsFrame :=
  { idx := listUnion a.idx b.idx
    cols := listUnion a.cols b.cols
    entry := fun t c =>
      match a.entry t c, b.entry t c with
      | some x, some y => some (x - y)
      | _, _ => none }

/-- Lines 322-341 (`plot_exposures_diff`): fetch the two portfolios by index
(lines 331-332) and difference their grouped exposures (line 333). -/
def plot_exposures_diff_op (pds : List PortfolioData) (i j : Int) :
    Option TsFrame := do
  let p1 ← pyGet pds i
  let p2 ← pyGet pds j
  some (subtract_frames p1.exposures p2.exposures)

/-- Insert a timestamp into a strictly sorted duplicate-free list, keeping it
strictly sorted and duplicate-free. -/
def insertSorted (t : Nat) : List Nat → List Nat
  | [] => [t]
  | a :: rest =>
    if t < a then t :: a :: rest
    else if t = a then a :: rest
    else a :: insertSorted t rest

/-- The sorted duplicate-free union of a family of timestamp lists. -/
def sortedUnion (ls : List (List Nat)) : List Nat :=
  (ls.flatMap id).foldr insertSorted []

/-- The index of `pd.concat(navs, axis=1)` (line 55): equal indexes are kept
as they are; differing indexes are outer-joined, and pandas sorts that
union. -/
def concatIndex (ss : List NavSeries) : List Nat :=
  match ss with
  | [] => []
  | s :: rest =>
    if rest.all (fun r => r.idx == s.idx) then s.idx
    else sortedUnion ((s :: rest).map (fun r => r.idx))

/-- The unified NAV table: one positionally addressed column per portfolio
(`entry k t` is column `k` at time `t`). -/
structure NavFrame where
  cols : List String
  idx : List Nat
  entry : Nat → Nat → Option ℚ

/-- `pd.concat(navs, axis=1)` (lines 52-55): the column names are the series
names in order; column `k` holds series `k`'s value at each timestamp of
series `k`'s own index and `NaN` elsewhere on the union index. -/
def concatNavs (ss : List NavSeries) : NavFrame :=
  { cols := ss.map (fun s => s.name)
    idx := concatIndex ss
    entry := fun k t =>
      match ss[k]? with
      | none => none
      | some s => if t ∈ s.idx then some (s.val t) else none }

/-- pandas `reindex(index=new, method='ffill')` source position: the last
original label `≤ t` (`none` before the first original label).  pandas
requires the original index to be monotonic for `method='ffill'`. -/
def ffillLookup (idx : List Nat) (t : Nat) : Option Nat :=
  (idx.filter (fun a => decide (a ≤ t))).max?

/-- `self.benchmark_prices.reindex(index=self.navs.index, method='ffill')`
(line 61): the new index is exactly `new_idx`; each value is forward-filled
from the last original row at or before the new label. -/
def reindex_ffill (bf : TsFrame) (new_idx : List Nat) : TsFrame :=
  { idx := new_idx
    cols := bf.cols
    entry := fun t c =>
      match ffillLookup bf.idx t with
      | none => none
      | some t0 => bf.entry t0 c }

/-- `self.navs.asfreq(freq=freq, method='ffill')` (lines 57-58): reindex onto
the regular grid of step `d` from the first to the last timestamp, each new
row forward-filled from the last original row at or before it. -/
def asfreq_ffill (nf : NavFrame) (d : Nat) : NavFrame :=
  match nf.idx.head?, nf.idx.getLast? with
  | some t0, some tl =>
    { cols := nf.cols
      idx := (List.range ((tl - t0) / d + 1)).map (fun k => t0 + k * d)
      entry := fun k t =>
        match ffillLookup nf.idx t with
        | none => none
        | some t2 => nf.entry k t2 }
  | _, _ => nf

/-- The aggregator's state (the `@dataclass` of lines 40-46 plus the
derived `navs` attribute that `set_navs` assigns). -/
structure MultiPortfolioData where
  portfolio_datas : List PortfolioData
  benchmark_prices : Option TsFrame
  navs : NavFrame

/-- `set_navs` (lines 51-61): rebuild the unified NAV table by concatenating
every portfolio's NAV series (lines 52-55), optionally resample it to `freq`
(lines 57-58, all call sites in this file pass `freq=None`), and reindex the
attached benchmark table onto the new NAV index with forward-fill (lines
60-61). -/
def set_navs (s : MultiPortfolioData) (freq : Option Nat) : MultiPortfolioData :=
  let navs0 := concatNavs (s.portfolio_datas.map (fun p => p.nav))
  let navs1 := match freq with
    | none => navs0
    | some d => asfreq_ffill navs0 d
  { portfolio_datas := s.portfolio_datas
    benchmark_prices := s.benchmark_prices.map (fun bf => reindex_ffill bf navs1.idx)
    navs := navs1 }

/-- `_set_benchmark_prices` (lines 63-65): store the new benchmark table and
trigger a full `set_navs(freq=None)` rebuild. -/
def set_benchmark_prices (s : MultiPortfolioData) (bp : TsFrame) :
    MultiPortfolioData :=
  set_navs { s with benchmark_prices := some bp } none

/-- A benchmark price column, as `get_benchmark_price` returns it. -/
structure BenchCol where
  name : String
  idx : List Nat
  val : Nat → Option ℚ

/-- `time_period.locate(...)`: restrict a timestamp index to a closed
interval (`None` leaves it unchanged). -/
def tpLocate (tp : Option (Nat × Nat)) (idx : List Nat) : List Nat :=
  match tp with
  | none => idx
  | some p => idx.filter (fun t => decide (p.1 ≤ t ∧ t ≤ p.2))

/-- `get_benchmark_price` (lines 84-91): select the named column of the
attached benchmark table (`none` when no table is attached or the name is
not a column - Python raises there) and restrict it to the time period. -/
def get_benchmark_price (s : MultiPortfolioData) (benchmark : String)
    (tp : Option (Nat × Nat)) : Option BenchCol :=
  match s.benchmark_prices with
  | none => none
  | some bf =>
    if benchmark ∈ bf.cols then
      some { name := benchmark, idx := tpLocate tp bf.idx,
             val := fun t => bf.entry t benchmark }
    else none

/-- The output of `get_ac_navs`: the portfolio's per-asset-class NAV table
and the benchmark column concatenated to it, if any. -/
structure AcNavsResult where
  prices : TsFrame
  bench : Option BenchCol

/-- The benchmark branch of `get_ac_navs` (lines 99-102): look up the price
of `self.benchmark_prices.columns[0]` - the first stored column - and
concatenate it to the portfolio's table. -/
def ac_navs_with_benchmark (s : MultiPortfolioData) (p : PortfolioData)
    (bf : TsFrame) (tp : Option (Nat × Nat)) : Option AcNavsResult :=
  match bf.cols.head? with
  | none => none
  | some c0 => do
    let bc ← get_benchmark_price s c0 tp
    some { prices := p.ac_navs tp, bench := some bc }

/-- `get_ac_navs` (lines 93-103): fetch the portfolio (Python indexing),
take its per-asset-class NAV table, and when a `benchmark` was requested
concatenate the benchmark price of `self.benchmark_prices.columns[0]`
(line 100) - the first stored column, not the requested name; the
`benchmark` argument is only tested against `None`. -/
def get_ac_navs (s : MultiPortfolioData) (portfolio_idx : Int)
    (benchmark : Option String) (tp : Option (Nat × Nat)) :
    Option AcNavsResult := do
  let p ← pyGet s.portfolio_datas portfolio_idx
  match benchmark with
  | none => some { prices := p.ac_navs tp, bench := none }
  | some _b =>
    match s.benchmark_prices with
    | none => none
    | some bf => ac_navs_with_benchmark s p bf tp

/-- One per-portfolio attribution series, as
`portfolio.get_performance_data(attribution_metric=..., time_period=...)`
(lines 477-478) returns it: named, with row labels and a per-row value
(`none` = `NaN`). -/
structure AttrSeries where
  name : String
  rows : List String
  val : String → Option ℚ

/-- Insertion into a lexicographically sorted duplicate-free list of row
labels (pandas sorts the outer-join union of differing indexes). -/
def insertSortedStr (r : String) : List String → List String
  | [] => [r]
  | a :: rest =>
    if r < a then r :: a :: rest
    else if r = a then a :: rest
    else a :: insertSortedStr r rest

/-- Sorted duplicate-free union of families of row labels. -/
def unionRowsSorted (ls : List (List String)) : List String :=
  (ls.flatMap id).foldr insertSortedStr []

/-- The row labels of `data = pd.concat(datas, axis=1)` (line 479): equal
indexes are kept, differing indexes are outer-joined and sorted. -/
def attrUnionRows (ds : List AttrSeries) : List String :=
  match ds with
  | [] => []
  | d :: rest =>
    if rest.all (fun r => r.rows == d.rows) then d.rows
    else unionRowsSorted ((d :: rest).map (fun r => r.rows))

/-- The comparison of `data.sort_values(data.columns[0], ascending=False)`
(line 480): descending by the first portfolio's value, missing values
last. -/
def attrSortLe (d0 : AttrSeries) (r1 r2 : String) : Bool :=
  match d0.val r1, d0.val r2 with
  | some a, some b => decide (b ≤ a)
  | some _, none => true
  | none, some _ => false
  | none, none => true

/-- Insertion step used to model the row reordering of `sort_values`. -/
def insertBy {α : Type} (le : α → α → Bool) (x : α) : List α → List α
  | [] => [x]
  | a :: l => if le x a then x :: a :: l else a :: insertBy le x l

/-- Insertion sort (stable, like pandas' default for our purposes: the
theorems below only use that sorting permutes the rows). -/
def sortBy {α : Type} (le : α → α → Bool) (l : List α) : List α :=
  l.foldr (insertBy le) []

/-- Whether a row survives `data.replace({0.0: np.nan}).dropna()` (line 486):
`replace` turns exact zeros into `NaN`, and `dropna()` (default `how='any'`)
drops every row with at least one `NaN` - so a row is kept exactly when
every portfolio's value at it is present and nonzero. -/
def attrRowKept (ds : List AttrSeries) (r : String) : Bool :=
  ds.all (fun d =>
    match d.val r with
    | some v => decide (v ≠ 0)
    | none => false)

/-- Lines 479-486 of `plot_performance_attribution`, from the fetched
per-portfolio series to the table handed to `qis.plot_bars`: concatenate
(union of row labels), sort descending by the first column, replace zeros by
`NaN` and drop rows with any `NaN`.  Returns the row labels that reach the
bar renderer, in drawing order. -/
def plot_performance_attribution_rows (ds : List AttrSeries) : List String :=
  (sortBy (attrSortLe (ds.headD { name := "", rows := [], val := fun _ => none }))
    (attrUnionRows ds)).filter (attrRowKept ds)

/-- Concrete attribution series: portfolio `p1` attributes `0` to instrument
`i1` and `1` to `i2`. -/
def attrA : AttrSeries :=
  { name := "p1", rows := ["i1", "i2"]
    val := fun r => if r = "i1" then some 0 else if r = "i2" then some 1 else none }

/-- Concrete attribution series: portfolio `p2` attributes `1` to both
instruments. -/
def attrB : AttrSeries :=
  { name := "p2", rows := ["i1", "i2"]
    val := fun r => if r = "i1" then some 1 else if r = "i2" then some 1 else none }

/-- A concrete portfolio with a two-point NAV history. -/
def pdemo (nm : String) : PortfolioData :=
  { nav := { name := nm, idx := [0, 1], val := fun _ => 1 }
    instrument_pnl := { idx := [0, 1], cols := [nm], entry := fun _ _ => some 1 }
    exposures := { idx := [0, 1], cols := [nm], entry := fun _ _ => some 1 }
    ac_navs := fun _ => { idx := [0, 1], cols := [nm], entry := fun _ _ => some 1 } }

/-- A concrete two-portfolio collection. -/
def demoPortfolios : List PortfolioData := [pdemo "p1", pdemo "p2"]

/-- A concrete benchmark price table with one column. -/
def demoBench : TsFrame :=
  { idx := [0], cols := ["SPY"]
    entry := fun t c => if t = 0 ∧ c = "SPY" then some 100 else none }

/-- A concrete aggregator state over the two demo portfolios, no benchmark. -/
def demoState : MultiPortfolioData :=
  { portfolio_datas := demoPortfolios
    benchmark_prices := none
    navs := concatNavs (demoPortfolios.map (fun p => p.nav)) }

/-- The demo state with the demo benchmark attached. -/
def demoStateB : MultiPortfolioData :=
  { demoState with benchmark_prices := some demoBench }

end MultiPortfolio

/-! ## Theorems

Helper lemmas first, then one theorem per claim (with its witness or
counterexample where the claim's status requires one). -/

namespace Vbars

theorem negWhere_add_posWhere (x : ℚ) : negWhere x + posWhere x = x := by
  unfold negWhere posWhere
  split_ifs with h1 h2 <;> linarith

theorem signedDrawn_negWhere (v : ℚ) : signedDrawn .neg (negWhere v) = negWhere v := by
  unfold signedDrawn negWhere
  split_ifs with h
  · rw [abs_of_nonpos (le_of_lt h)]; ring
  · simp

theorem signedDrawn_posWhere (v : ℚ) : signedDrawn .pos (posWhere v) = posWhere v := rfl

theorem range_filter_beq (n y : Nat) (h : y < n) :
    (List.range n).filter (fun k => k == y) = [y] := by
  induction n with
  | zero => omega
  | succ n ih =>
    rw [List.range_succ, List.filter_append]
    rcases Nat.lt_or_ge y n with h2 | h2
    · rw [ih h2]
      have hne : (n == y) = false := by simp; omega
      simp [hne]
    · have hyn : y = n := by omega
      subst hyn
      have hnil : (List.range y).filter (fun k => k == y) = [] := by
        rw [List.filter_eq_nil_iff]
        intro a ha
        simp only [List.mem_range] at ha
        simp
        omega
      simp [hnil]

theorem getD_map_of_lt {α β : Type} (f : α → β) (l : List α) (n : Nat)
    (h : n < l.length) (d : α) (d2 : β) :
    (l.map f).getD n d2 = f (l.getD n d) := by
  rw [List.getD_eq_getElem?_getD, List.getD_eq_getElem?_getD, List.getElem?_map,
    List.getElem?_eq_getElem h]
  simp

theorem sum_map_getD (l : List ℚ) :
    ((List.range l.length).map (fun i => l.getD i 0)).sum = l.sum := by
  induction l with
  | nil => simp
  | cons a l ih =>
    have : (a :: l).length = l.length + 1 := rfl
    rw [this, List.range_succ_eq_map, List.map_cons, List.map_map]
    have hcomp : ((fun i => (a :: l).getD i 0) ∘ Nat.succ) = fun i => l.getD i 0 := rfl
    rw [hcomp, List.sum_cons, ih]
    rfl

theorem sum_map_add (f g : Nat → ℚ) (l : List Nat) :
    (l.map f).sum + (l.map g).sum = (l.map (fun i => f i + g i)).sum := by
  induction l with
  | nil => simp
  | cons a l ih =>
    simp only [List.map_cons, List.sum_cons]
    rw [← ih]
    ring

theorem colSegments_signed_sum (pass : StackPass) (i : Nat)
    (starts widths : List ℚ) (y : Nat) (hy : y < widths.length) :
    (((colSegments pass i starts widths).filter (fun s => s.row == y)).map
        signedWidth).sum = signedDrawn pass (widths.getD y 0) := by
  unfold colSegments
  rw [List.filter_map, List.map_map]
  have hpred : ((fun s : Segment => s.row == y) ∘ fun k =>
      ({ pass := pass, row := k, colIdx := i, start := starts.getD k 0,
         width := drawnWidth pass (widths.getD k 0),
         value := widths.getD k 0 } : Segment)) = fun k => k == y := rfl
  rw [hpred, range_filter_beq _ _ hy]
  simp only [List.map_cons, List.map_nil, List.sum_cons, List.sum_nil, add_zero]
  cases pass <;> simp [signedWidth, signedDrawn, drawnWidth]

theorem stackPass_signed_sum (cfg : VbarsCfg) (pass : StackPass)
    (np_data : List (List ℚ)) (b : ℚ) (select : ℚ → ℚ) (y : Nat)
    (hy : y < np_data.length) (cols : List Nat) :
    ∀ starts : List ℚ,
    (((stackPass cfg pass np_data b select cols starts).1.filter
        (fun s => s.row == y)).map signedWidth).sum
      = (cols.map (fun i =>
          signedDrawn pass (select ((np_data.getD y []).getD i 0)))).sum := by
  induction cols with
  | nil => intro starts; simp [stackPass]
  | cons i rest ih =>
    intro starts
    show (((colSegments pass i starts ((column np_data i).map select) ++
        (stackPass cfg pass np_data b select rest
          (starts.zipWith (fun s w => s + drawnWidth pass w)
            ((column np_data i).map select))).1).filter
        (fun s => s.row == y)).map signedWidth).sum = _
    rw [List.filter_append, List.map_append, List.sum_append]
    have hw : y < ((column np_data i).map select).length := by
      simpa [column] using hy
    rw [colSegments_signed_sum pass i starts _ y hw, ih]
    have hcol : ((column np_data i).map select).getD y 0
        = select ((np_data.getD y []).getD i 0) := by
      have h1 : ((column np_data i).map select).getD y 0
          = select ((column np_data i).getD y 0) := by
        apply getD_map_of_lt _ _ _ (by simpa [column] using hy)
      have h2 : (column np_data i).getD y 0 = (np_data.getD y []).getD i 0 := by
        unfold column
        exact getD_map_of_lt _ _ _ hy [] 0
      rw [h1, h2]
    rw [hcol]
    simp [List.map_cons, List.sum_cons]

/-- C3, the claim's statement over the embedding: for every input table and
every configuration, for every row `y` of the table (with rectangular data,
one cell per category column), the signed sum of the drawn segment widths of
that row equals the sum of the row's input values; exact equality in `ℚ`, so
in particular within any floating tolerance.  The negative and positive
accumulators are independent by construction of `plot_vbars` (the positive
pass restarts from `0 * last_starts`), and both treat each row's component
independently. -/
theorem plot_vbars_row_signed_sum (cfg : VbarsCfg) (df : VbarsInput)
    (totalsArg : Option (List ℚ)) (fmt : ℚ → String) (y : Nat)
    (hy : y < df.np_data.length)
    (hrect : ∀ row ∈ df.np_data, row.length = df.category_names.length) :
    rowSignedSum (plot_vbars cfg df totalsArg fmt) y = (df.np_data.getD y []).sum := by
  unfold rowSignedSum plot_vbars
  simp only
  rw [List.filter_append, List.map_append, List.sum_append]
  rw [stackPass_signed_sum cfg .neg df.np_data _ negWhere y hy _ _,
    stackPass_signed_sum cfg .pos df.np_data _ posWhere y hy _ _]
  simp only [signedDrawn_negWhere, signedDrawn_posWhere]
  rw [sum_map_add]
  have hrow : (df.np_data.getD y []) ∈ df.np_data := by
    rw [List.getD_eq_getElem?_getD, List.getElem?_eq_getElem hy]
    exact List.getElem_mem _
  have hlen : (df.np_data.getD y []).length = df.category_names.length :=
    hrect _ hrow
  calc ((List.range df.category_names.length).map (fun i =>
          negWhere ((df.np_data.getD y []).getD i 0)
            + posWhere ((df.np_data.getD y []).getD i 0))).sum
      = ((List.range df.category_names.length).map
          (fun i => (df.np_data.getD y []).getD i 0)).sum := by
        congr 1
        apply List.map_congr_left
        intro i _
        exact negWhere_add_posWhere _
    _ = (df.np_data.getD y []).sum := by
        rw [← hlen]
        exact sum_map_getD _

/-- Witness for C3 at the unit test's diverging-bar row `f1 : (0.5, 0.5)`
(source lines 434-449): two columns, one row, signed widths summing to `1`. -/
theorem plot_vbars_row_signed_sum_witness :
    rowSignedSum (plot_vbars {} ⟨["f1"], ["as1", "as2"], [[1/2, 1/2]]⟩ none
      (fun _ => "")) 0 = 1 := by
  have h := plot_vbars_row_signed_sum {} ⟨["f1"], ["as1", "as2"], [[1/2, 1/2]]⟩
    none (fun _ => "") 0 (by decide)
    (by intro row hrow; simp at hrow; subst hrow; rfl)
  rw [h]
  norm_num

theorem colTexts_not_zero (cfg : VbarsCfg) (pass : StackPass) (b : ℚ)
    (starts widths : List ℚ) :
    ∀ t ∈ colTexts cfg pass b starts widths, npIsCloseZero t.value = false := by
  intro t ht
  unfold colTexts at ht
  split at ht
  · rw [List.mem_filterMap] at ht
    obtain ⟨k, -, hk⟩ := ht
    simp only at hk
    split at hk
    · exact absurd hk (by simp)
    · cases hk
      simp only
      rename_i hcl
      exact Bool.eq_false_iff.mpr hcl
  · exact absurd ht (List.not_mem_nil t)

theorem stackPass_not_zero (cfg : VbarsCfg) (pass : StackPass)
    (np_data : List (List ℚ)) (b : ℚ) (select : ℚ → ℚ) (cols : List Nat) :
    ∀ starts : List ℚ,
    ∀ t ∈ (stackPass cfg pass np_data b select cols starts).2.1,
      npIsCloseZero t.value = false := by
  induction cols with
  | nil => intro starts t ht; simp [stackPass] at ht
  | cons i rest ih =>
    intro starts t ht
    show npIsCloseZero t.value = false
    have ht2 : t ∈ colTexts cfg pass b starts ((column np_data i).map select) ++
        (stackPass cfg pass np_data b select rest
          (starts.zipWith (fun s w => s + drawnWidth pass w)
            ((column np_data i).map select))).2.1 := ht
    rw [List.mem_append] at ht2
    rcases ht2 with h | h
    · exact colTexts_not_zero cfg pass b _ _ t h
    · exact ih _ t h

/-- C4: for every input table, every `totals` argument and every configuration
of the annotation toggles (`is_add_bar_values`, `add_bar_perc_values`,
`add_bar_value_at_mid` are all part of `VbarsCfg`), every drawn value text
labels a segment whose value is not zero within floating tolerance
(`np.isclose(c, 0.0)` is false): a zero segment is never annotated. -/
theorem plot_vbars_zero_never_annotated (cfg : VbarsCfg) (df : VbarsInput)
    (totalsArg : Option (List ℚ)) (fmt : ℚ → String) :
    ((plot_vbars cfg df totalsArg fmt).texts.all
      (fun t => !npIsCloseZero t.value)) = true := by
  rw [List.all_eq_true]
  intro t ht
  have ht2 : t ∈ (stackPass cfg .neg df.np_data _ negWhere
      (List.range df.category_names.length)
      (df.np_data.map (fun row => (row.map negWhere).sum))).2.1 ++
      (stackPass cfg .pos df.np_data _ posWhere
        (List.range df.category_names.length)
        ((df.np_data.map (fun row => (row.map negWhere).sum)).map
          (fun _ => (0 : ℚ)))).2.1 := ht
  rw [List.mem_append] at ht2
  rcases ht2 with h | h
  · simpa using stackPass_not_zero cfg .neg df.np_data _ negWhere _ _ t h
  · simpa using stackPass_not_zero cfg .pos df.np_data _ posWhere _ _ t h

end Vbars


namespace Bars

/-- C1 counterexample: at a concrete one-cell table indexed by a timestamp,
the caller's table after `plot_bars` is not the table it held before the
call - lines 66-67 reassign `df.index` on the caller's object itself, not on
a local copy, so the claim "after the call the caller's table holds the same
index and values it held before the call" is false. -/
theorem plot_bars_preserves_input_counterexample :
    (plot_bars tsDemoCfg tsDemoDf).post_df ≠ tsDemoDf := by decide

/-- C1 amended: `plot_bars` never mutates the input table's values or
columns; when the index does not start with a timestamp the caller's table is
completely unchanged; when it does, the caller's index itself is re-formatted
in place to display strings (`formatIndex`), so after the call the caller's
table holds the original values under the re-formatted - not the original -
index.  (An empty index is excluded: line 66 indexes `df.index[0]`.) -/
theorem plot_bars_inplace_index_mutation (cfg : BarsCfg) (df : BarsData)
    (hne : indexOf df ≠ []) :
    valuesOf (plot_bars cfg df).post_df = valuesOf df ∧
    colsOf (plot_bars cfg df).post_df = colsOf df ∧
    (isTsHead (indexOf df) = false → (plot_bars cfg df).post_df = df) ∧
    indexOf (plot_bars cfg df).post_df = formatIndex cfg.date_fmt (indexOf df) := by
  cases df with
  | series idx vals =>
    refine ⟨rfl, rfl, ?_, rfl⟩
    intro h
    simp only [indexOf] at h
    show BarsData.series (formatIndex cfg.date_fmt idx) vals = BarsData.series idx vals
    simp [formatIndex, h]
  | frame f =>
    refine ⟨rfl, rfl, ?_, rfl⟩
    intro h
    simp only [indexOf] at h
    show BarsData.frame { f with index := formatIndex cfg.date_fmt f.index }
        = BarsData.frame f
    simp [formatIndex, h]

/-- Witness for the amended C1 at the concrete timestamp-indexed table. -/
theorem plot_bars_inplace_index_mutation_witness :
    valuesOf (plot_bars tsDemoCfg tsDemoDf).post_df = valuesOf tsDemoDf ∧
    colsOf (plot_bars tsDemoCfg tsDemoDf).post_df = colsOf tsDemoDf ∧
    (isTsHead (indexOf tsDemoDf) = false →
      (plot_bars tsDemoCfg tsDemoDf).post_df = tsDemoDf) ∧
    indexOf (plot_bars tsDemoCfg tsDemoDf).post_df
      = formatIndex tsDemoCfg.date_fmt (indexOf tsDemoDf) :=
  plot_bars_inplace_index_mutation tsDemoCfg tsDemoDf (by decide)

theorem foldl_xStep_extends (l : List Patch) (acc : XSlots) :
    acc.x_locs <+: (l.foldl xStep acc).x_locs ∧
    acc.x_mins <+: (l.foldl xStep acc).x_mins ∧
    acc.x_maxs <+: (l.foldl xStep acc).x_maxs := by
  induction l generalizing acc with
  | nil => exact ⟨List.prefix_rfl, List.prefix_rfl, List.prefix_rfl⟩
  | cons p rest ih =>
    have hstep : acc.x_locs <+: (xStep acc p).x_locs ∧
        acc.x_mins <+: (xStep acc p).x_mins ∧
        acc.x_maxs <+: (xStep acc p).x_maxs := by
      unfold xStep
      split
      · exact ⟨List.prefix_rfl, List.prefix_rfl, List.prefix_rfl⟩
      · exact ⟨List.prefix_append _ _, List.prefix_append _ _,
          List.prefix_append _ _⟩
    have hrest := ih (xStep acc p)
    exact ⟨hstep.1.trans hrest.1, hstep.2.1.trans hrest.2.1,
      hstep.2.2.trans hrest.2.2⟩

theorem foldl_xStep_all_new (ps : List Patch) :
    ∀ acc : XSlots,
    (ps.map (fun p => p.x)).Nodup →
    (∀ p ∈ ps, p.x ∉ acc.x_locs) →
    ps.foldl xStep acc = XSlots.mk
      (acc.x_locs ++ ps.map (fun p => p.x))
      (acc.x_mins ++ ps.map (fun p => p.x))
      (acc.x_maxs ++ ps.map (fun p => p.x + p.width)) := by
  induction ps with
  | nil => intro acc _ _; cases acc; simp
  | cons p rest ih =>
    intro acc hnodup hnew
    have hn2 := hnodup
    rw [List.map_cons, List.nodup_cons] at hn2
    have hni : p.x ∉ acc.x_locs := hnew p (List.mem_cons_self p rest)
    have hstep : xStep acc p = XSlots.mk (acc.x_locs ++ [p.x])
        (acc.x_mins ++ [p.x]) (acc.x_maxs ++ [p.x + p.width]) := by
      unfold xStep; rw [if_neg hni]
    rw [List.foldl_cons, hstep,
      ih _ hn2.2 (by
        intro q hq hmem
        rw [List.mem_append, List.mem_singleton] at hmem
        rcases hmem with hmem | hmem
        · exact hnew q (List.mem_cons_of_mem p hq) hmem
        · exact hn2.1 (hmem ▸ List.mem_map_of_mem _ hq))]
    simp [List.append_assoc]

theorem catX_injective : Function.Injective catX := by
  intro a b h
  unfold catX at h
  have h2 : (a : ℚ) = b := by linarith
  exact_mod_cast h2

theorem nodup_cat_xs (m : ℕ) : ((List.range m).map catX).Nodup :=
  List.Nodup.map catX_injective (List.nodup_range m)

theorem getD_map_range (m k : ℕ) (hk : k < m) (g : ℕ → ℚ) (d : ℚ) :
    ((List.range m).map g).getD k d = g k := by
  rw [Vbars.getD_map_of_lt g (List.range m) k (by simpa using hk) 0 d]
  congr 1
  rw [List.getD_eq_getElem?_getD, List.getElem?_eq_getElem (by simpa using hk)]
  simp

theorem collectX_seriesPatches (vals : List ℚ) :
    collectX (seriesPatches vals) = XSlots.mk
      ((List.range vals.length).map catX)
      ((List.range vals.length).map catX)
      ((List.range vals.length).map (fun i => catX i + 4/5)) := by
  unfold collectX seriesPatches
  rw [foldl_xStep_all_new _ _
    (by simpa [List.map_map, Function.comp] using nodup_cat_xs vals.length)
    (by intro p _ hmem; simp at hmem)]
  simp [List.map_map, Function.comp]

theorem zip4_length {α β γ δ : Type} (as : List α) (bs : List β) (cs : List γ)
    (ds : List δ) : (zip4 as bs cs ds).length
      = min (min as.length bs.length) (min cs.length ds.length) := by
  induction as generalizing bs cs ds with
  | nil => cases bs <;> cases cs <;> cases ds <;> simp [zip4]
  | cons a as ih =>
    cases bs with
    | nil => simp [zip4]
    | cons b bs =>
      cases cs with
      | nil => simp [zip4]
      | cons c cs =>
        cases ds with
        | nil => simp [zip4]
        | cons d ds =>
          have h := ih bs cs ds
          simp only [zip4, List.length_cons, h]
          omega

theorem zip4_getD {α β γ δ : Type} (k : Nat) :
    ∀ (as : List α) (bs : List β) (cs : List γ) (ds : List δ),
    k < as.length → k < bs.length → k < cs.length → k < ds.length →
    ∀ (da : α) (db : β) (dc : γ) (dd : δ),
    (zip4 as bs cs ds).getD k (da, db, dc, dd)
      = (as.getD k da, bs.getD k db, cs.getD k dc, ds.getD k dd) := by
  induction k with
  | zero =>
    intro as bs cs ds ha hb hc hd da db dc dd
    cases as with
    | nil => simp at ha
    | cons a as =>
      cases bs with
      | nil => simp at hb
      | cons b bs =>
        cases cs with
        | nil => simp at hc
        | cons c cs =>
          cases ds with
          | nil => simp at hd
          | cons d ds => rfl
  | succ k ih =>
    intro as bs cs ds ha hb hc hd da db dc dd
    cases as with
    | nil => simp at ha
    | cons a as =>
      cases bs with
      | nil => simp at hb
      | cons b bs =>
        cases cs with
        | nil => simp at hc
        | cons c cs =>
          cases ds with
          | nil => simp at hd
          | cons d ds =>
            show (zip4 as bs cs ds).getD k (da, db, dc, dd) = _
            rw [ih as bs cs ds (by simpa using ha) (by simpa using hb)
              (by simpa using hc) (by simpa using hd)]
            rfl

theorem foldl_extends_exists (A : XSlots) (r : List Patch) :
    ∃ e1 e2 e3, (List.foldl xStep A r).x_locs = A.x_locs ++ e1 ∧
      (List.foldl xStep A r).x_mins = A.x_mins ++ e2 ∧
      (List.foldl xStep A r).x_maxs = A.x_maxs ++ e3 := by
  obtain ⟨⟨t1, ht1⟩, ⟨t2, ht2⟩, ⟨t3, ht3⟩⟩ := foldl_xStep_extends r A
  exact ⟨t1, t2, t3, ht1.symm, ht2.symm, ht3.symm⟩

theorem collectX_blocks (m n : ℕ) (w : ℚ) (hgt : ℕ → ℕ → ℚ) :
    ∃ e1 e2 e3,
      (collectX ((List.range (n + 1)).flatMap (fun (j : Nat) =>
        (List.range m).map (fun (i : Nat) =>
          Patch.mk (catX i + (j : ℚ) * w) w 0 (hgt i j))))).x_locs
        = (List.range m).map catX ++ e1 ∧
      (collectX ((List.range (n + 1)).flatMap (fun (j : Nat) =>
        (List.range m).map (fun (i : Nat) =>
          Patch.mk (catX i + (j : ℚ) * w) w 0 (hgt i j))))).x_mins
        = (List.range m).map catX ++ e2 ∧
      (collectX ((List.range (n + 1)).flatMap (fun (j : Nat) =>
        (List.range m).map (fun (i : Nat) =>
          Patch.mk (catX i + (j : ℚ) * w) w 0 (hgt i j))))).x_maxs
        = (List.range m).map (fun i => catX i + w) ++ e3 := by
  have hA : List.foldl xStep (XSlots.mk [] [] [])
      ((List.range m).map (fun (i : Nat) => Patch.mk (catX i) w 0 (hgt i 0)))
      = XSlots.mk ((List.range m).map catX) ((List.range m).map catX)
        ((List.range m).map (fun i => catX i + w)) := by
    rw [foldl_xStep_all_new _ _
      (by rw [List.map_map]; exact nodup_cat_xs m)
      (by intro p _ hmem; exact List.not_mem_nil _ hmem)]
    simp only [List.nil_append, List.map_map]
    rfl
  simp only [List.range_succ_eq_map, List.flatMap_cons, Nat.cast_zero,
    zero_mul, add_zero]
  unfold collectX
  rw [List.foldl_append, hA]
  exact foldl_extends_exists _ _

theorem collectX_framePatches (f : BarsFrame) (hs : f.cols ≠ []) :
    ∃ e1 e2 e3,
      (collectX (framePatches f)).x_locs
        = (List.range f.index.length).map catX ++ e1 ∧
      (collectX (framePatches f)).x_mins
        = (List.range f.index.length).map catX ++ e2 ∧
      (collectX (framePatches f)).x_maxs
        = (List.range f.index.length).map
            (fun i => catX i + (4/5) / (f.cols.length : ℚ)) ++ e3 := by
  obtain ⟨n, hn⟩ := Nat.exists_eq_succ_of_ne_zero (fun h0 =>
    hs (List.length_eq_zero.mp h0))
  unfold framePatches
  rw [hn]
  exact collectX_blocks f.index.length n ((4/5) / ((n + 1 : ℕ) : ℚ))
    (fun i j => (f.data.getD i []).getD j 0)

/-- C2: for every table (series or frame), every supplied per-category totals
list (one total per category) and both stacked and grouped mode (`stacked` is
a field of `cfg` and is quantified over), `plot_bars` draws exactly one total
marker per category; the `k`-th marker shows exactly the `k`-th supplied
total (as the `y` of the horizontal tick, or as the value the top-anchored
label formats), spans category `k`'s first drawn bar (`x_min = catX k`,
`x_max = catX k + barWidth df`), and is top-anchored exactly when
`is_top_totals` was requested. -/
theorem plot_bars_totals_markers (cfg : BarsCfg) (df : BarsData) (ts : List ℚ)
    (htot : cfg.totals = some ts) (hlen : ts.length = nCategories df)
    (hwf : inputWF df) :
    (plot_bars cfg df).markers.length = nCategories df ∧
    ∀ k, k < nCategories df →
      ((plot_bars cfg df).markers.getD k mdflt).total = ts.getD k 0 ∧
      ((plot_bars cfg df).markers.getD k mdflt).x_min = catX k ∧
      ((plot_bars cfg df).markers.getD k mdflt).x_max = catX k + barWidth df ∧
      ((plot_bars cfg df).markers.getD k mdflt).is_top = cfg.is_top_totals := by
  cases df with
  | series idx vals =>
    have hwf2 : vals.length = idx.length := hwf
    simp only [nCategories] at hlen ⊢
    have hmm : (plot_bars cfg (.series idx vals)).markers
        = (zip4 ts ((List.range vals.length).map catX)
            ((List.range vals.length).map catX)
            ((List.range vals.length).map (fun i => catX i + 4/5))).map
          (fun q => TotalMarker.mk q.1 q.2.2.1 q.2.2.2 cfg.is_top_totals) := by
      have h0 : (plot_bars cfg (.series idx vals)).markers
          = totalMarkers cfg (collectX (seriesPatches vals)) := rfl
      rw [h0, collectX_seriesPatches]
      simp only [totalMarkers, htot]
    have hzlen : (zip4 ts ((List.range vals.length).map catX)
        ((List.range vals.length).map catX)
        ((List.range vals.length).map (fun i => catX i + 4/5))).length
        = idx.length := by
      rw [zip4_length]
      simp only [List.length_map, List.length_range]
      omega
    constructor
    · rw [hmm, List.length_map, hzlen]
    · intro k hk
      rw [hmm, Vbars.getD_map_of_lt _ _ k (by rw [hzlen]; exact hk)
        ((0 : ℚ), (0 : ℚ), (0 : ℚ), (0 : ℚ)) mdflt]
      rw [zip4_getD k _ _ _ _ (by omega)
        (by simp only [List.length_map, List.length_range]; omega)
        (by simp only [List.length_map, List.length_range]; omega)
        (by simp only [List.length_map, List.length_range]; omega) 0 0 0 0]
      refine ⟨rfl, ?_, ?_, rfl⟩
      · show ((List.range vals.length).map catX).getD k 0 = catX k
        exact getD_map_range vals.length k (by omega) catX 0
      · show ((List.range vals.length).map (fun i => catX i + 4/5)).getD k 0
            = catX k + barWidth (.series idx vals)
        exact getD_map_range vals.length k (by omega) (fun i => catX i + 4/5) 0
  | frame f =>
    simp only [nCategories] at hlen ⊢
    obtain ⟨e1, e2, e3, h1, h2, h3⟩ := collectX_framePatches f hwf
    have hmm : (plot_bars cfg (.frame f)).markers
        = (zip4 ts (collectX (framePatches f)).x_locs
            (collectX (framePatches f)).x_mins
            (collectX (framePatches f)).x_maxs).map
          (fun q => TotalMarker.mk q.1 q.2.2.1 q.2.2.2 cfg.is_top_totals) := by
      have h0 : (plot_bars cfg (.frame f)).markers
          = totalMarkers cfg (collectX (framePatches f)) := rfl
      rw [h0]
      simp only [totalMarkers, htot]
    have hl1 : (collectX (framePatches f)).x_locs.length
        = f.index.length + e1.length := by
      rw [h1]; simp
    have hl2 : (collectX (framePatches f)).x_mins.length
        = f.index.length + e2.length := by
      rw [h2]; simp
    have hl3 : (collectX (framePatches f)).x_maxs.length
        = f.index.length + e3.length := by
      rw [h3]; simp
    have hzlen : (zip4 ts (collectX (framePatches f)).x_locs
        (collectX (framePatches f)).x_mins
        (collectX (framePatches f)).x_maxs).length = f.index.length := by
      rw [zip4_length, hl1, hl2, hl3]
      omega
    constructor
    · rw [hmm, List.length_map, hzlen]
    · intro k hk
      rw [hmm, Vbars.getD_map_of_lt _ _ k (by rw [hzlen]; exact hk)
        ((0 : ℚ), (0 : ℚ), (0 : ℚ), (0 : ℚ)) mdflt]
      rw [zip4_getD k _ _ _ _ (by omega) (by omega) (by omega) (by omega) 0 0 0 0]
      have hg1 : (collectX (framePatches f)).x_mins.getD k 0 = catX k := by
        rw [h2, List.getD_append _ _ _ k (by simp; omega)]
        exact getD_map_range f.index.length k hk catX 0
      have hg3 : (collectX (framePatches f)).x_maxs.getD k 0
          = catX k + (4/5) / (f.cols.length : ℚ) := by
        rw [h3, List.getD_append _ _ _ k (by simp; omega)]
        exact getD_map_range f.index.length k hk _ 0
      exact ⟨rfl, hg1, hg3, rfl⟩

/-- Witness for C2 at a concrete two-category, two-series table with totals
`[10, 20]`: two markers, showing `10` and `20` at the two category slots. -/
theorem plot_bars_totals_markers_witness :
    (plot_bars totalsDemoCfg totalsDemoDf).markers.length
      = nCategories totalsDemoDf ∧
    ∀ k, k < nCategories totalsDemoDf →
      ((plot_bars totalsDemoCfg totalsDemoDf).markers.getD k mdflt).total
        = [(10 : ℚ), 20].getD k 0 ∧
      ((plot_bars totalsDemoCfg totalsDemoDf).markers.getD k mdflt).x_min
        = catX k ∧
      ((plot_bars totalsDemoCfg totalsDemoDf).markers.getD k mdflt).x_max
        = catX k + barWidth totalsDemoDf ∧
      ((plot_bars totalsDemoCfg totalsDemoDf).markers.getD k mdflt).is_top
        = totalsDemoCfg.is_top_totals :=
  plot_bars_totals_markers totalsDemoCfg totalsDemoDf [10, 20] rfl (by decide)
    (by simp [inputWF, totalsDemoDf])

end Bars

namespace MultiPortfolio

theorem mem_listUnion {α : Type} [DecidableEq α] (l1 l2 : List α) (x : α) :
    x ∈ listUnion l1 l2 ↔ x ∈ l1 ∨ x ∈ l2 := by
  unfold listUnion
  rw [List.mem_append, List.mem_filter]
  constructor
  · rintro (h | ⟨h2, -⟩)
    · exact Or.inl h
    · exact Or.inr h2
  · intro h
    by_cases h1 : x ∈ l1
    · exact Or.inl h1
    · rcases h with h | h
      · exact Or.inl h
      · exact Or.inr ⟨h, decide_eq_true h1⟩

/-- C5: the pairwise instrument P&L difference of `plot_instrument_pnl_diff`
(outer-join alignment on the union of timestamps and instruments, missing
entries filled with zero, then subtraction) is anti-symmetric: the tables
computed for `(a, b)` and `(b, a)` carry the same timestamps and the same
instruments, and entry by entry one is the negation of the other. -/
theorem instrument_pnl_diff_antisymm (a b : TsFrame) :
    (∀ t, t ∈ (instrument_pnl_diff a b).idx ↔ t ∈ (instrument_pnl_diff b a).idx) ∧
    (∀ c, c ∈ (instrument_pnl_diff a b).cols ↔ c ∈ (instrument_pnl_diff b a).cols) ∧
    (∀ t c, (instrument_pnl_diff a b).entry t c
      = ((instrument_pnl_diff b a).entry t c).map (fun x => -x)) := by
  refine ⟨?_, ?_, ?_⟩
  · intro t
    rw [show (instrument_pnl_diff a b).idx = listUnion a.idx b.idx from rfl,
      show (instrument_pnl_diff b a).idx = listUnion b.idx a.idx from rfl,
      mem_listUnion, mem_listUnion]
    tauto
  · intro c
    rw [show (instrument_pnl_diff a b).cols = listUnion a.cols b.cols from rfl,
      show (instrument_pnl_diff b a).cols = listUnion b.cols a.cols from rfl,
      mem_listUnion, mem_listUnion]
    tauto
  · intro t c
    show some (fillna0 a t c - fillna0 b t c)
      = (some (fillna0 b t c - fillna0 a t c)).map (fun x => -x)
    rw [show ((some (fillna0 b t c - fillna0 a t c)).map (fun x => -x))
      = some (-(fillna0 b t c - fillna0 a t c)) from rfl]
    congr 1
    ring

/-- C7: attaching a benchmark table through `_set_benchmark_prices` triggers
a full `set_navs` rebuild (the stored NAV table is the fresh concatenation of
the portfolios' NAV series), and afterwards the stored benchmark table's
index is exactly the rebuilt unified NAV table's index - no row of the NAV
index is dropped - with the benchmark values forward-filled onto that index
(each value taken from the last original benchmark row at or before the new
label).  The monotonicity hypothesis is pandas' own precondition for
`reindex(method='ffill')`; the spec's TimeSeriesTable invariant guarantees
it. -/
theorem set_benchmark_prices_rebuild (s : MultiPortfolioData) (bp : TsFrame)
    (_hsorted : List.Pairwise (· < ·) bp.idx) :
    (set_benchmark_prices s bp).navs
      = concatNavs (s.portfolio_datas.map (fun p => p.nav)) ∧
    ∃ bf, (set_benchmark_prices s bp).benchmark_prices = some bf ∧
      bf.idx = (set_benchmark_prices s bp).navs.idx ∧
      bf.cols = bp.cols ∧
      ∀ t c, bf.entry t c = (match ffillLookup bp.idx t with
        | none => none
        | some t0 => bp.entry t0 c) := by
  constructor
  · rfl
  · exact ⟨_, rfl, rfl, rfl, fun t c => rfl⟩

/-- Witness for C7 at the concrete demo state and one-row benchmark table. -/
theorem set_benchmark_prices_rebuild_witness :
    (set_benchmark_prices demoState demoBench).navs
      = concatNavs (demoState.portfolio_datas.map (fun p => p.nav)) ∧
    ∃ bf, (set_benchmark_prices demoState demoBench).benchmark_prices = some bf ∧
      bf.idx = (set_benchmark_prices demoState demoBench).navs.idx ∧
      bf.cols = demoBench.cols ∧
      ∀ t c, bf.entry t c = (match ffillLookup demoBench.idx t with
        | none => none
        | some t0 => demoBench.entry t0 c) :=
  set_benchmark_prices_rebuild demoState demoBench (by decide)

theorem isSome_getElemQ {α : Type} (l : List α) (n : Nat) :
    l[n]?.isSome = true ↔ n < l.length := by
  constructor
  · intro h
    by_contra hn
    rw [List.getElem?_eq_none (by omega)] at h
    simp at h
  · intro h
    rw [List.getElem?_eq_getElem h]
    rfl

theorem pyGet_isSome {α : Type} (l : List α) (i : Int) :
    (pyGet l i).isSome = true ↔ (-(l.length : Int) ≤ i ∧ i < l.length) := by
  unfold pyGet
  split_ifs with h1 h2
  · rw [isSome_getElemQ]
    omega
  · rw [isSome_getElemQ]
    omega
  · simp only [Option.isSome_none, Bool.false_eq_true, false_iff]
    omega

theorem pairwise_op_isSome (pds : List PortfolioData) (i j : Int)
    (F : PortfolioData → PortfolioData → TsFrame) :
    ((pyGet pds i).bind (fun p1 => (pyGet pds j).bind
        (fun p2 => some (F p1 p2)))).isSome = true ↔
      (-(pds.length : Int) ≤ i ∧ i < pds.length ∧
       -(pds.length : Int) ≤ j ∧ j < pds.length) := by
  constructor
  · intro h
    cases h1 : pyGet pds i with
    | none => rw [h1] at h; simp at h
    | some p1 =>
      cases h2 : pyGet pds j with
      | none => rw [h1, h2] at h; simp at h
      | some p2 =>
        have hi := (pyGet_isSome pds i).mp (by rw [h1]; rfl)
        have hj := (pyGet_isSome pds j).mp (by rw [h2]; rfl)
        exact ⟨hi.1, hi.2, hj.1, hj.2⟩
  · rintro ⟨hi1, hi2, hj1, hj2⟩
    obtain ⟨p1, hp1⟩ := Option.isSome_iff_exists.mp ((pyGet_isSome pds i).mpr ⟨hi1, hi2⟩)
    obtain ⟨p2, hp2⟩ := Option.isSome_iff_exists.mp ((pyGet_isSome pds j).mpr ⟨hj1, hj2⟩)
    rw [hp1, hp2]
    rfl

/-- C9 counterexample: with two portfolios, the requested index `-1` is
outside `0..len-1`, yet `plot_instrument_pnl_diff` does not fail - Python's
negative indexing makes it silently select the last portfolio, computing
exactly what the call with index `1` computes. -/
theorem out_of_range_counterexample :
    (plot_instrument_pnl_diff_op demoPortfolios 0 (-1)).isSome = true ∧
    ¬ (0 ≤ (-1 : Int) ∧ (-1 : Int) < demoPortfolios.length) ∧
    plot_instrument_pnl_diff_op demoPortfolios 0 (-1)
      = plot_instrument_pnl_diff_op demoPortfolios 0 1 := by
  refine ⟨rfl, ?_, rfl⟩
  intro h
  omega

/-- C9 amended: the pairwise comparison operations
(`plot_instrument_pnl_diff`, `plot_exposures_diff`) fail with an
out-of-range condition (`IndexError`) exactly when a requested portfolio
index is outside `-len..len-1`; an index in `-len..-1` does not fail but
silently selects the portfolio at position `len + idx` (Python negative
indexing), so only indices outside `-len..len-1` fail. -/
theorem pairwise_ops_out_of_range (pds : List PortfolioData) (i j : Int) :
    ((plot_instrument_pnl_diff_op pds i j).isSome = true ↔
      (-(pds.length : Int) ≤ i ∧ i < pds.length ∧
       -(pds.length : Int) ≤ j ∧ j < pds.length)) ∧
    ((plot_exposures_diff_op pds i j).isSome = true ↔
      (-(pds.length : Int) ≤ i ∧ i < pds.length ∧
       -(pds.length : Int) ≤ j ∧ j < pds.length)) :=
  ⟨pairwise_op_isSome pds i j
      (fun p1 p2 => instrument_pnl_diff p1.instrument_pnl p2.instrument_pnl),
    pairwise_op_isSome pds i j
      (fun p1 p2 => subtract_frames p1.exposures p2.exposures)⟩

theorem mem_insertSorted (t x : Nat) (l : List Nat) :
    x ∈ insertSorted t l ↔ x = t ∨ x ∈ l := by
  induction l with
  | nil => simp [insertSorted]
  | cons a rest ih =>
    unfold insertSorted
    split_ifs with h1 h2
    · exact List.mem_cons
    · subst h2
      constructor
      · exact Or.inr
      · rintro (rfl | h)
        · exact List.mem_cons_self _ _
        · exact h
    · rw [List.mem_cons, ih, List.mem_cons]
      tauto

theorem pairwise_insertSorted (t : Nat) (l : List Nat)
    (h : List.Pairwise (· < ·) l) :
    List.Pairwise (· < ·) (insertSorted t l) := by
  induction l with
  | nil => simp [insertSorted]
  | cons a rest ih =>
    rw [List.pairwise_cons] at h
    unfold insertSorted
    split_ifs with h1 h2
    · rw [List.pairwise_cons]
      refine ⟨?_, List.pairwise_cons.mpr h⟩
      intro b hb
      rcases List.mem_cons.mp hb with rfl | hb
      · exact h1
      · exact lt_trans h1 (h.1 b hb)
    · exact List.pairwise_cons.mpr h
    · rw [List.pairwise_cons]
      refine ⟨?_, ih h.2⟩
      intro b hb
      rcases (mem_insertSorted t b rest).mp hb with rfl | hb
      · omega
      · exact h.1 b hb

theorem pairwise_sortedUnion (ls : List (List Nat)) :
    List.Pairwise (· < ·) (sortedUnion ls) := by
  unfold sortedUnion
  induction ls.flatMap id with
  | nil => simp
  | cons a l ih => exact pairwise_insertSorted a _ ih

theorem mem_sortedUnion (ls : List (List Nat)) (x : Nat) :
    x ∈ sortedUnion ls ↔ x ∈ ls.flatMap id := by
  unfold sortedUnion
  induction ls.flatMap id with
  | nil => simp
  | cons a l ih =>
    rw [List.foldr_cons, mem_insertSorted, ih, List.mem_cons]

theorem pairwise_concatIndex (ss : List NavSeries) (hne : ss ≠ [])
    (hsorted : ∀ s2 ∈ ss, List.Pairwise (· < ·) s2.idx) :
    List.Pairwise (· < ·) (concatIndex ss) := by
  cases ss with
  | nil => exact absurd rfl hne
  | cons s0 rest =>
    show List.Pairwise (· < ·)
      (if rest.all (fun r => r.idx == s0.idx) then s0.idx
       else sortedUnion ((s0 :: rest).map (fun r => r.idx)))
    split_ifs with hall
    · exact hsorted s0 (List.mem_cons_self _ _)
    · exact pairwise_sortedUnion _

theorem mem_concatIndex (ss : List NavSeries) (sk : NavSeries) (hk : sk ∈ ss)
    (t : Nat) (ht : t ∈ sk.idx) : t ∈ concatIndex ss := by
  cases ss with
  | nil => exact absurd hk (List.not_mem_nil sk)
  | cons s0 rest =>
    show t ∈
      (if rest.all (fun r => r.idx == s0.idx) then s0.idx
       else sortedUnion ((s0 :: rest).map (fun r => r.idx)))
    split_ifs with hall
    · rw [List.all_eq_true] at hall
      rcases List.mem_cons.mp hk with rfl | hk
      · exact ht
      · have h2 := hall sk hk
        rw [beq_iff_eq] at h2
        rw [← h2]
        exact ht
    · rw [mem_sortedUnion, List.mem_flatMap]
      exact ⟨sk.idx, List.mem_map_of_mem _ hk, ht⟩

/-- C6: after `set_navs` (as invoked at construction and on benchmark
attachment, `freq=None`) on a non-empty portfolio list, the unified NAV table
has exactly one column per portfolio, in order, named after the portfolio's
NAV series; its timestamp index is monotonically (strictly) increasing; and
every portfolio's NAV series appears in its column: each of its timestamps is
a row of the unified index, where the column holds exactly the series' value.
The monotonicity hypothesis on each NAV series is the spec's TimeSeriesTable
invariant (strictly increasing timestamps). -/
theorem set_navs_unified (pds : List PortfolioData) (bp : Option TsFrame)
    (nf0 : NavFrame) (hne : pds ≠ [])
    (hsorted : ∀ p ∈ pds, List.Pairwise (· < ·) p.nav.idx) :
    (set_navs ⟨pds, bp, nf0⟩ none).navs.cols = pds.map (fun p => p.nav.name) ∧
    List.Pairwise (· < ·) (set_navs ⟨pds, bp, nf0⟩ none).navs.idx ∧
    ∀ k, k < pds.length → ∀ t, t ∈ (pds.getD k dfltPortfolio).nav.idx →
      (t ∈ (set_navs ⟨pds, bp, nf0⟩ none).navs.idx ∧
       (set_navs ⟨pds, bp, nf0⟩ none).navs.entry k t
         = some ((pds.getD k dfltPortfolio).nav.val t)) := by
  refine ⟨?_, ?_, ?_⟩
  · show ((pds.map (fun p => p.nav)).map (fun s => s.name))
      = pds.map (fun p => p.nav.name)
    rw [List.map_map]
    rfl
  · show List.Pairwise (· < ·) (concatIndex (pds.map (fun p => p.nav)))
    refine pairwise_concatIndex _ ?_ ?_
    · intro h0
      exact hne (List.map_eq_nil_iff.mp h0)
    · intro s2 hs2
      obtain ⟨p, hp, rfl⟩ := List.mem_map.mp hs2
      exact hsorted p hp
  · intro k hk t ht
    have hmem : pds.getD k dfltPortfolio ∈ pds := by
      rw [List.getD_eq_getElem?_getD, List.getElem?_eq_getElem hk]
      exact List.getElem_mem _
    constructor
    · show t ∈ concatIndex (pds.map (fun p => p.nav))
      exact mem_concatIndex _ ((pds.getD k dfltPortfolio).nav)
        (List.mem_map_of_mem _ hmem) t ht
    · have hss : (pds.map (fun p => p.nav))[k]?
          = some ((pds.getD k dfltPortfolio).nav) := by
        rw [List.getElem?_map, List.getElem?_eq_getElem hk,
          List.getD_eq_getElem?_getD, List.getElem?_eq_getElem hk]
        rfl
      show (match (pds.map (fun p => p.nav))[k]? with
        | none => none
        | some s2 => if t ∈ s2.idx then some (s2.val t) else none)
        = some ((pds.getD k dfltPortfolio).nav.val t)
      rw [hss]
      simp only
      rw [if_pos ht]

/-- Witness for C6 at the two concrete demo portfolios. -/
theorem set_navs_unified_witness :
    (set_navs ⟨demoPortfolios, none, demoState.navs⟩ none).navs.cols
      = demoPortfolios.map (fun p => p.nav.name) ∧
    List.Pairwise (· < ·)
      (set_navs ⟨demoPortfolios, none, demoState.navs⟩ none).navs.idx ∧
    ∀ k, k < demoPortfolios.length →
      ∀ t, t ∈ (demoPortfolios.getD k dfltPortfolio).nav.idx →
      (t ∈ (set_navs ⟨demoPortfolios, none, demoState.navs⟩ none).navs.idx ∧
       (set_navs ⟨demoPortfolios, none, demoState.navs⟩ none).navs.entry k t
         = some ((demoPortfolios.getD k dfltPortfolio).nav.val t)) :=
  set_navs_unified demoPortfolios none demoState.navs
    (List.cons_ne_nil _ _)
    (by
      intro p hp
      rcases List.mem_cons.mp hp with rfl | hp
      · decide
      · rcases List.mem_cons.mp hp with rfl | hp
        · decide
        · exact absurd hp (List.not_mem_nil p))

theorem mem_insertBy {α : Type} (le : α → α → Bool) (x y : α) (l : List α) :
    x ∈ insertBy le y l ↔ x = y ∨ x ∈ l := by
  induction l with
  | nil => simp [insertBy]
  | cons a rest ih =>
    unfold insertBy
    split_ifs with h1
    · exact List.mem_cons
    · rw [List.mem_cons, ih, List.mem_cons]
      tauto

theorem mem_sortBy {α : Type} (le : α → α → Bool) (x : α) (l : List α) :
    x ∈ sortBy le l ↔ x ∈ l := by
  unfold sortBy
  induction l with
  | nil => simp
  | cons a rest ih =>
    rw [List.foldr_cons, mem_insertBy, ih, List.mem_cons]

theorem attrRowKept_iff (ds : List AttrSeries) (r : String) :
    attrRowKept ds r = true ↔ ∀ d ∈ ds, ∃ v, d.val r = some v ∧ v ≠ 0 := by
  unfold attrRowKept
  rw [List.all_eq_true]
  constructor
  · intro h d hd
    have h2 := h d hd
    cases hv : d.val r with
    | none => rw [hv] at h2; simp at h2
    | some v =>
      rw [hv] at h2
      simp only [decide_eq_true_eq] at h2
      exact ⟨v, rfl, h2⟩
  · intro h d hd
    obtain ⟨v, hv, hv0⟩ := h d hd
    rw [hv]
    simpa using hv0

/-- C8 counterexample: with two portfolios, instrument `i1` carries the
values `(0, 1)` - not all zero - yet `plot_performance_attribution` drops its
row before plotting: `replace({0.0: np.nan}).dropna()` drops every row with
at least one zero, not only the all-zero rows. -/
theorem attribution_drop_counterexample :
    "i1" ∉ plot_performance_attribution_rows [attrA, attrB] ∧
    attrA.val "i1" = some 0 ∧ attrB.val "i1" = some 1 ∧ (1 : ℚ) ≠ 0 := by
  refine ⟨by decide, rfl, rfl, by norm_num⟩

/-- C8 amended: the rows dropped before plotting are exactly those with at
least one zero or missing attribution value: a row reaches the bar renderer
if and only if it is a row of the concatenated table and every portfolio's
value at it is present and non-zero.  (In particular every all-zero row is
dropped, but so is any row with a single zero or missing entry.) -/
theorem attribution_rows_kept_iff (ds : List AttrSeries) (r : String) :
    r ∈ plot_performance_attribution_rows ds ↔
      (r ∈ attrUnionRows ds ∧ ∀ d ∈ ds, ∃ v, d.val r = some v ∧ v ≠ 0) := by
  unfold plot_performance_attribution_rows
  rw [List.mem_filter, mem_sortBy, attrRowKept_iff]

/-- C10: for every state with an attached benchmark table having at least one
column, the `get_ac_navs` result does not depend on which benchmark name was
requested - the `benchmark` argument only decides whether a column is added -
and the column concatenated to the per-asset-class NAV table is always the
first stored benchmark column (name, index and values). -/
theorem get_ac_navs_first_benchmark (s : MultiPortfolioData) (bf : TsFrame)
    (hbp : s.benchmark_prices = some bf) (hcols : bf.cols ≠ [])
    (pidx : Int) (tp : Option (Nat × Nat)) (b1 b2 : String) :
    get_ac_navs s pidx (some b1) tp = get_ac_navs s pidx (some b2) tp ∧
    ∀ res, get_ac_navs s pidx (some b1) tp = some res →
      ∃ bc, res.bench = some bc ∧
        bc.name = bf.cols.headD "" ∧
        bc.idx = tpLocate tp bf.idx ∧
        ∀ t, bc.val t = bf.entry t (bf.cols.headD "") := by
  obtain ⟨c0, cs, hc⟩ : ∃ c0 cs, bf.cols = c0 :: cs := by
    cases hcc : bf.cols with
    | nil => exact absurd hcc hcols
    | cons a l => exact ⟨a, l, rfl⟩
  have hmemc : c0 ∈ bf.cols := by
    rw [hc]
    exact List.mem_cons_self _ _
  have hgbp : get_benchmark_price s c0 tp
      = some { name := c0, idx := tpLocate tp bf.idx
               val := fun t => bf.entry t c0 } := by
    unfold get_benchmark_price
    rw [hbp]
    show (if c0 ∈ bf.cols then
        some ({ name := c0, idx := tpLocate tp bf.idx
                val := fun t => bf.entry t c0 } : BenchCol)
      else none) = _
    rw [if_pos hmemc]
  constructor
  · rfl
  · intro res hres
    cases hp : pyGet s.portfolio_datas pidx with
    | none =>
      unfold get_ac_navs at hres
      rw [hp] at hres
      simp at hres
    | some p =>
      have heq : get_ac_navs s pidx (some b1) tp
          = some { prices := p.ac_navs tp
                   bench := some { name := c0, idx := tpLocate tp bf.idx
                                   val := fun t => bf.entry t c0 } } := by
        unfold get_ac_navs
        rw [hp, hbp]
        show ac_navs_with_benchmark s p bf tp = _
        unfold ac_navs_with_benchmark
        rw [hc]
        show (get_benchmark_price s c0 tp).bind (fun bc =>
          some ({ prices := p.ac_navs tp, bench := some bc } : AcNavsResult)) = _
        rw [hgbp]
        rfl
      rw [heq] at hres
      rw [Option.some_inj] at hres
      rw [← hres]
      refine ⟨_, rfl, ?_, rfl, ?_⟩
      · show c0 = bf.cols.headD ""
        rw [hc]
        rfl
      · intro t
        show bf.entry t c0 = bf.entry t (bf.cols.headD "")
        rw [hc]
        rfl

/-- Witness for C10 at the concrete demo state: requesting benchmarks named
`X` and `Y` yields the same result, and the appended column is the stored
table's first column `SPY`. -/
theorem get_ac_navs_first_benchmark_witness :
    get_ac_navs demoStateB 0 (some "X") none
      = get_ac_navs demoStateB 0 (some "Y") none ∧
    ∀ res, get_ac_navs demoStateB 0 (some "X") none = some res →
      ∃ bc, res.bench = some bc ∧
        bc.name = demoBench.cols.headD "" ∧
        bc.idx = tpLocate none demoBench.idx ∧
        ∀ t, bc.val t = demoBench.entry t (demoBench.cols.headD "") :=
  get_ac_navs_first_benchmark demoStateB demoBench rfl (by decide) 0 none "X" "Y"

end MultiPortfolio

